import Mathlib

/-!
Shallow embedding of the real-time FM synthesizer voice in `src/main.rs`
(padenot/mafmds).  Rust `f32` values are modelled as real numbers, `usize`
as `Nat` and `isize` as `Int`; the `as usize` cast is modelled by `Nat.floor`
(truncation toward zero, saturating at `0` for negative inputs).  Fallible
or non-finite float results are tracked where a claim depends on them
(`ADSR.renderChecked`).  The crossbeam `ArrayQueue` used as the parameter
channel is an external crate, so it is modelled from the specification.
-/

/-- Envelope generator state, mirroring `struct ADSR` in the source:
segment lengths are sample counts (`usize` in Rust, `Nat` here), `sustain`
and `sample_rate` are `f32`, modelled as reals. -/
structure ADSR where
  start_time : ℕ
  attack : ℕ
  decay : ℕ
  hold : ℕ
  release : ℕ
  sample_rate : ℝ
  sustain : ℝ

/-- `duration` in the source: `attack + decay + hold + release`. -/
def ADSR.duration (e : ADSR) : ℕ :=
  e.attack + e.decay + e.hold + e.release

/-- The shaping closure `f` inside `ADSR::render`: `f(t) = t * t`. -/
def ADSR.shape (x : ℝ) : ℝ := x * x

/-- `ADSR::render` from the source, with the successive `t -= …`
truncated subtractions inlined (they operate on `usize`, so `Nat`
subtraction is the exact model). -/
noncomputable def ADSR.render (e : ADSR) (t : ℕ) : ℝ :=
  if e.start_time + e.duration < t ∨ t < e.start_time then 0
  else if t - e.start_time < e.attack then
    ADSR.shape (((t - e.start_time : ℕ) : ℝ) / (e.attack : ℝ))
  else if t - e.start_time - e.attack < e.decay then
    1 - (1 - e.sustain) * ADSR.shape (((t - e.start_time - e.attack : ℕ) : ℝ) / (e.decay : ℝ))
  else if t - e.start_time - e.attack - e.decay < e.hold then
    e.sustain
  else
    e.sustain -
      e.sustain * ADSR.shape (((t - e.start_time - e.attack - e.decay - e.hold : ℕ) : ℝ) / (e.release : ℝ))

/-- Division as performed on `f32`: a zero divisor yields a non-finite
result (`NaN` or `±∞`), recorded as `none`; otherwise the exact quotient. -/
noncomputable def fdiv (a b : ℝ) : Option ℝ :=
  if b = 0 then none else some (a / b)

/-- `ADSR::render` again, but tracking whether the one division the taken
branch performs has a zero divisor (in the Rust `f32` code such a division
produces a non-finite value); `none` marks that case. -/
noncomputable def ADSR.renderChecked (e : ADSR) (t : ℕ) : Option ℝ :=
  if e.start_time + e.duration < t ∨ t < e.start_time then some 0
  else if t - e.start_time < e.attack then
    (fdiv ((t - e.start_time : ℕ) : ℝ) (e.attack : ℝ)).map ADSR.shape
  else if t - e.start_time - e.attack < e.decay then
    (fdiv ((t - e.start_time - e.attack : ℕ) : ℝ) (e.decay : ℝ)).map
      (fun x => 1 - (1 - e.sustain) * ADSR.shape x)
  else if t - e.start_time - e.attack - e.decay < e.hold then
    some e.sustain
  else
    (fdiv ((t - e.start_time - e.attack - e.decay - e.hold : ℕ) : ℝ) (e.release : ℝ)).map
      (fun x => e.sustain - e.sustain * ADSR.shape x)

/-- `ADSR::new`: all segments zero except `release = (sample_rate / 100) as usize`. -/
noncomputable def ADSR.new (sample_rate : ℝ) : ADSR :=
  ⟨0, 0, 0, 0, ⌊sample_rate / 100⌋₊, sample_rate, 1⟩

/-- `s2f`: seconds to frames, `(s * sample_rate) as usize`. -/
noncomputable def ADSR.s2f (e : ADSR) (s : ℝ) : ℕ :=
  ⌊s * e.sample_rate⌋₊

/-- `ADSR::set_attack`. -/
noncomputable def ADSR.set_attack (e : ADSR) (a : ℝ) : ADSR :=
  { e with attack := e.s2f a }

/-- `ADSR::set_decay`. -/
noncomputable def ADSR.set_decay (e : ADSR) (d : ℝ) : ADSR :=
  { e with decay := e.s2f d }

/-- `ADSR::set_hold`. -/
noncomputable def ADSR.set_hold (e : ADSR) (h : ℝ) : ADSR :=
  { e with hold := e.s2f h }

/-- `ADSR::set_sustain`. -/
def ADSR.set_sustain (e : ADSR) (s : ℝ) : ADSR :=
  { e with sustain := s }

/-- `ADSR::set_release`. -/
noncomputable def ADSR.set_release (e : ADSR) (r : ℝ) : ADSR :=
  { e with release := e.s2f r }

/-- `ADSR::trigger`: restart the envelope timeline at `time`. -/
def ADSR.trigger (e : ADSR) (time : ℕ) : ADSR :=
  { e with start_time := time }

/-- `struct Param`: smoothable control value (`f32` fields as reals,
`isize` counters as integers). -/
structure Param where
  v0 : ℝ
  v1 : ℝ
  counter : ℤ
  smoothing : ℤ
  sample_rate : ℝ

/-- `Param::new`. -/
def Param.new (sample_rate : ℝ) (v : ℝ) : Param :=
  ⟨v, v, 1000, 1000, sample_rate⟩

/-- `Param::value`: the smoothing logic in the source is commented out,
so the query simply returns `v0` and mutates nothing. -/
def Param.value (p : Param) : ℝ := p.v0

/-- `Param::set_value`: the transition scheduling is commented out in the
source; the setter writes `v0` directly. -/
def Param.set_value (p : Param) (v : ℝ) : Param :=
  { p with v0 := v }

/-- `Param::set_value_no_smooth`. -/
def Param.set_value_no_smooth (p : Param) (v : ℝ) : Param :=
  { p with counter := p.smoothing, v0 := v, v1 := v }

/-- `struct Oscillator`. -/
structure Oscillator where
  phase : ℝ
  sample_rate : ℝ
  frequency : Param
  detune : Param

/-- `Oscillator::new`: phase 0, frequency 440, detune 0. -/
def Oscillator.new (sample_rate : ℝ) : Oscillator :=
  ⟨0, sample_rate, Param.new sample_rate 440, Param.new sample_rate 0⟩

/-- `exp2` on `f32`, modelled by the real power `2 ^ x`. -/
noncomputable def exp2 (x : ℝ) : ℝ := (2 : ℝ) ^ x

/-- The phase increment computed inside `Oscillator::render`:
`final_frequency = frequency.value() + exp2(detune.value() / 1200)`,
`period = sample_rate / final_frequency`, increment `2π / period`. -/
noncomputable def Oscillator.increment (o : Oscillator) : ℝ :=
  2 * Real.pi / (o.sample_rate / (o.frequency.value + exp2 (o.detune.value / 1200)))

/-- The first wrapping step in `Oscillator::render`:
`if phase > 2π { phase -= 2π }`. -/
noncomputable def wrapStep (p : ℝ) : ℝ :=
  if p > 2 * Real.pi then p - 2 * Real.pi else p

/-- The second guard in `Oscillator::render`:
`if phase != phase { phase = 0 }`; over the reals `p ≠ p` is never true,
mirroring that only a float `NaN` differs from itself. -/
noncomputable def nanReset (p : ℝ) : ℝ :=
  if p ≠ p then 0 else p

/-- `Oscillator::render`: emit `sin` of the phase held before the call,
then advance the phase by the increment and apply the two guards. -/
noncomputable def Oscillator.render (o : Oscillator) (_t : ℕ) : ℝ × Oscillator :=
  (Real.sin o.phase, { o with phase := nanReset (wrapStep (o.phase + o.increment)) })

/-- `Oscillator::set_frequency` (smoothed control path). -/
def Oscillator.set_frequency (o : Oscillator) (f : ℝ) : Oscillator :=
  { o with frequency := o.frequency.set_value f }

/-- `Oscillator::set_frequency_no_smooth` (per-sample modulation path). -/
def Oscillator.set_frequency_no_smooth (o : Oscillator) (f : ℝ) : Oscillator :=
  { o with frequency := o.frequency.set_value_no_smooth f }

/-- `Oscillator::set_detune`. -/
def Oscillator.set_detune (o : Oscillator) (d : ℝ) : Oscillator :=
  { o with detune := o.detune.set_value d }

/-- `enum Parameters`: the tagged control messages. -/
inductive Parameters where
  | CarrierFreq (v : ℝ)
  | ModulationFreq (v : ℝ)
  | Attack (v : ℝ)
  | Release (v : ℝ)

/-- Modelled from the spec: the crossbeam `ArrayQueue` used as the
ParameterChannel is an external crate; per §4.4 it is a bounded FIFO of
fixed capacity whose `push` fails (leaving the queue unchanged) when full
and whose `pop` returns the oldest pending item. Items are kept oldest
first. -/
structure ArrayQueue where
  capacity : ℕ
  items : List Parameters

/-- Modelled from the spec: `try_push` — enqueue unless full; the returned
Boolean is the success indicator. -/
def ArrayQueue.push (q : ArrayQueue) (u : Parameters) : ArrayQueue × Bool :=
  if q.items.length < q.capacity then ({ q with items := q.items ++ [u] }, true)
  else (q, false)

/-- Modelled from the spec: `try_pop` — dequeue the oldest pending item,
or `none` when empty. -/
def ArrayQueue.pop (q : ArrayQueue) : Option Parameters × ArrayQueue :=
  match q.items with
  | [] => (none, q)
  | u :: rest => (some u, { q with items := rest })

/-- `ArrayQueue::new(capacity)`. -/
def ArrayQueue.empty (c : ℕ) : ArrayQueue := ⟨c, []⟩

/-- The control thread's `q.push(...).unwrap()` in `main`: `unwrap`
panics when the push fails, so a failed push has no normal result
(`none` marks the panic). -/
def pushUnwrap (q : ArrayQueue) (u : Parameters) : Option ArrayQueue :=
  if (q.push u).2 then some (q.push u).1 else none

/-- Push a whole list in order, collecting each push's success indicator. -/
def pushAll (q : ArrayQueue) : List Parameters → ArrayQueue × List Bool
  | [] => (q, [])
  | u :: us =>
      ((pushAll (q.push u).1 us).1, (q.push u).2 :: (pushAll (q.push u).1 us).2)

/-- Pop `n` times, collecting the items in pop order (stopping at empty). -/
def drainN : ArrayQueue → ℕ → List Parameters
  | _, 0 => []
  | q, n + 1 =>
      match q.pop with
      | (none, _) => []
      | (some u, q2) => u :: drainN q2 n

/-- The synthesis state owned by the audio callback in `main`: the
envelope, carrier and modulator oscillators, the consumer view of the
parameter queue (oldest first), and the sample clock `consumer.raw_frames()`. -/
structure SynthState where
  env : ADSR
  osc : Oscillator
  oscMod : Oscillator
  queue : List Parameters
  clock : ℕ

/-- The `match m { … }` dispatch at the top of the data callback. -/
noncomputable def applyUpdate (s : SynthState) (m : Parameters) : SynthState :=
  match m with
  | Parameters.CarrierFreq v => { s with osc := s.osc.set_frequency v }
  | Parameters.ModulationFreq v => { s with oscMod := s.oscMod.set_frequency v }
  | Parameters.Release v => { s with env := s.env.set_release v }
  | Parameters.Attack v => { s with env := s.env.set_attack v }

/-- The single `q2.pop()` attempt at the top of each callback invocation:
apply the oldest pending update if any, else leave the state unchanged. -/
noncomputable def popAndApply (s : SynthState) : SynthState :=
  match s.queue with
  | [] => s
  | m :: rest => applyUpdate { s with queue := rest } m

/-- One iteration of the per-frame loop in the data callback: read `t`,
retrigger the envelope when `t % 48000 == 0`, render the modulator, set
the carrier frequency immediately to `(m + 1) * 100`, render envelope and
carrier, write the product to both channels, advance the clock. -/
noncomputable def processFrame (s : SynthState) : SynthState × (ℝ × ℝ) :=
  ({ env := if s.clock % 48000 = 0 then s.env.trigger s.clock else s.env,
     osc := ((s.osc.set_frequency_no_smooth (((s.oscMod.render s.clock).1 + 1) * 100)).render s.clock).2,
     oscMod := (s.oscMod.render s.clock).2,
     queue := s.queue,
     clock := s.clock + 1 },
   ((if s.clock % 48000 = 0 then s.env.trigger s.clock else s.env).render s.clock *
      ((s.osc.set_frequency_no_smooth (((s.oscMod.render s.clock).1 + 1) * 100)).render s.clock).1,
    (if s.clock % 48000 = 0 then s.env.trigger s.clock else s.env).render s.clock *
      ((s.osc.set_frequency_no_smooth (((s.oscMod.render s.clock).1 + 1) * 100)).render s.clock).1))

/-- The frame loop: `n` frames, collecting the stereo output pairs. -/
noncomputable def runFrames : SynthState → ℕ → SynthState × List (ℝ × ℝ)
  | s, 0 => (s, [])
  | s, n + 1 =>
      ((runFrames (processFrame s).1 n).1,
       (processFrame s).2 :: (runFrames (processFrame s).1 n).2)

/-- One data-callback invocation on a block of `n` frames: one pop
attempt, then the frame loop. -/
noncomputable def processBlock (s : SynthState) (n : ℕ) : SynthState × List (ℝ × ℝ) :=
  runFrames (popAndApply s) n

/-- A quotient of natural counts is in `[0, 1]` when the numerator is at
most the (positive) denominator. -/
theorem natdiv_unit {a b : ℕ} (hb : 0 < b) (hab : a ≤ b) :
    0 ≤ (a : ℝ) / (b : ℝ) ∧ (a : ℝ) / (b : ℝ) ≤ 1 := by
  constructor
  · exact div_nonneg (Nat.cast_nonneg a) (Nat.cast_nonneg b)
  · rw [div_le_one (by exact_mod_cast hb)]
    exact_mod_cast hab

/-- The shaping function maps `[0, 1]` into `[0, 1]`. -/
theorem shape_unit {x : ℝ} (h0 : 0 ≤ x) (h1 : x ≤ 1) :
    0 ≤ ADSR.shape x ∧ ADSR.shape x ≤ 1 := by
  unfold ADSR.shape
  constructor
  · positivity
  · nlinarith

/-- C1: with positive segment durations, `ADSR::render` equals the
piecewise closed form of the specification: `0` strictly outside
`[start_time, start_time + duration]`, the ease-in square in Attack,
`1 - (1 - sustain) * shape` in Decay, exactly `sustain` in Hold,
`sustain * (1 - shape)` in Release, and exactly `0` at the exact end
sample `start_time + duration`. -/
theorem adsr_render_piecewise (e : ADSR)
    (ha : 0 < e.attack) (hd : 0 < e.decay) (hh : 0 < e.hold) (hr : 0 < e.release)
    (t : ℕ) :
    ((t < e.start_time ∨ e.start_time + e.duration < t) → e.render t = 0) ∧
    (e.start_time ≤ t → t < e.start_time + e.attack →
      e.render t = ADSR.shape (((t - e.start_time : ℕ) : ℝ) / (e.attack : ℝ))) ∧
    (e.start_time + e.attack ≤ t → t < e.start_time + e.attack + e.decay →
      e.render t =
        1 - (1 - e.sustain) * ADSR.shape (((t - e.start_time - e.attack : ℕ) : ℝ) / (e.decay : ℝ))) ∧
    (e.start_time + e.attack + e.decay ≤ t → t < e.start_time + e.attack + e.decay + e.hold →
      e.render t = e.sustain) ∧
    (e.start_time + e.attack + e.decay + e.hold ≤ t → t ≤ e.start_time + e.duration →
      e.render t =
        e.sustain *
          (1 - ADSR.shape (((t - e.start_time - e.attack - e.decay - e.hold : ℕ) : ℝ) / (e.release : ℝ)))) ∧
    e.render (e.start_time + e.duration) = 0 := by
  have hdur : e.duration = e.attack + e.decay + e.hold + e.release := rfl
  unfold ADSR.render
  refine ⟨?_, ?_, ?_, ?_, ?_, ?_⟩
  · intro h
    rw [if_pos (h.elim Or.inr Or.inl)]
  · intro h1 h2
    rw [if_neg (by omega), if_pos (by omega)]
  · intro h1 h2
    rw [if_neg (by omega), if_neg (by omega), if_pos (by omega)]
  · intro h1 h2
    rw [if_neg (by omega), if_neg (by omega), if_neg (by omega), if_pos (by omega)]
  · intro h1 h2
    rw [if_neg (by omega), if_neg (by omega), if_neg (by omega), if_neg (by omega)]
    ring
  · rw [if_neg (by omega), if_neg (by omega), if_neg (by omega), if_neg (by omega)]
    have hsub : e.start_time + e.duration - e.start_time - e.attack - e.decay - e.hold
        = e.release := by omega
    rw [hsub, div_self (by exact_mod_cast hr.ne')]
    unfold ADSR.shape
    ring

/-- A concrete envelope used to instantiate the ADSR theorems. -/
noncomputable def envW : ADSR := ⟨10, 2, 2, 2, 2, 48000, 1 / 2⟩

/-- Witness for C1: on the envelope `envW` (all segments of length 2,
sustain 1/2, started at 10), the sample at `t = 11` lies in Attack and
renders the ease-in square of `1/2`. -/
theorem adsr_render_piecewise_witness :
    0 < envW.attack ∧ envW.start_time ≤ 11 ∧ 11 < envW.start_time + envW.attack ∧
      envW.render 11 = ADSR.shape (((11 - envW.start_time : ℕ) : ℝ) / (envW.attack : ℝ)) :=
  ⟨by decide, by decide, by decide,
    (adsr_render_piecewise envW (by decide) (by decide) (by decide) (by decide) 11).2.1
      (by decide) (by decide)⟩

/-- C10: with sustain in `[0, 1]` and positive segment durations, the
envelope gain stays in `[0, 1]` at every query index. -/
theorem adsr_render_unit_range (e : ADSR)
    (hs0 : 0 ≤ e.sustain) (hs1 : e.sustain ≤ 1)
    (ha : 0 < e.attack) (hd : 0 < e.decay) (hh : 0 < e.hold) (hr : 0 < e.release)
    (t : ℕ) :
    0 ≤ e.render t ∧ e.render t ≤ 1 := by
  have hdur : e.duration = e.attack + e.decay + e.hold + e.release := rfl
  unfold ADSR.render
  split_ifs with hout hA hD hH
  · norm_num
  · exact shape_unit (natdiv_unit ha (by omega)).1 (natdiv_unit ha (by omega)).2
  · have hx := natdiv_unit hd (le_of_lt hD)
    have hs := shape_unit hx.1 hx.2
    constructor
    · nlinarith [hs.1, hs.2]
    · nlinarith [hs.1, hs.2]
  · exact ⟨hs0, hs1⟩
  · have hle : t - e.start_time - e.attack - e.decay - e.hold ≤ e.release := by omega
    have hx := natdiv_unit hr hle
    have hs := shape_unit hx.1 hx.2
    constructor
    · nlinarith [hs.1, hs.2]
    · nlinarith [hs.1, hs.2]

/-- Witness for C10: the envelope `envW` has sustain `1/2 ∈ [0,1]` and
its rendered gain at `t = 13` lies in `[0, 1]`. -/
theorem adsr_render_unit_range_witness :
    0 ≤ envW.sustain ∧ envW.sustain ≤ 1 ∧ 0 < envW.attack ∧
      0 ≤ envW.render 13 ∧ envW.render 13 ≤ 1 := by
  refine ⟨by norm_num [envW], by norm_num [envW], by decide, ?_, ?_⟩
  · exact (adsr_render_unit_range envW (by norm_num [envW]) (by norm_num [envW])
      (by decide) (by decide) (by decide) (by decide) 13).1
  · exact (adsr_render_unit_range envW (by norm_num [envW]) (by norm_num [envW])
      (by decide) (by decide) (by decide) (by decide) 13).2

/-- The envelope of C5's failing input: zero-length release (reachable by
`set_release(0.0)`), positive attack, decay and hold. -/
noncomputable def envZeroRelease : ADSR := ⟨0, 2, 3, 4, 0, 48000, 1⟩

/-- C5 (code bug): with `release = 0`, the query at
`t = start_time + attack + decay + hold = 9` falls into the Release branch
and divides by the zero release length, so the `f32` code produces a
non-finite value instead of passing the zero-length segment through with
its boundary value. -/
theorem adsr_zero_release_division_by_zero :
    ADSR.renderChecked envZeroRelease 9 = none := by
  unfold ADSR.renderChecked envZeroRelease ADSR.duration fdiv
  norm_num

/-- C6 (code bug): `Param::set_value` writes the current value directly
(the smoothing logic is commented out in the source), so the very next
`value()` query already returns the new value — a hard step, not a
smoothed transition. -/
theorem param_set_value_hard_step (p : Param) (v : ℝ) :
    (p.set_value v).value = v := rfl

/-- A full parameter channel: capacity 16 with 16 pending updates. -/
def fullChannel : ArrayQueue :=
  ⟨16, List.replicate 16 (Parameters.CarrierFreq 110)⟩

/-- C4 (code bug): the control loop in `main` calls
`q.push(update).unwrap()`; on a full channel the push fails and the
`unwrap` panics the control thread instead of silently dropping the
update, so the attempted push has no normal result. -/
theorem control_push_full_aborts :
    pushUnwrap fullChannel (Parameters.CarrierFreq 220) = none := by
  unfold pushUnwrap fullChannel ArrayQueue.push
  norm_num

/-- Pushing a list that fits entirely into the remaining capacity appends
it in order and reports success for every element. -/
theorem pushAll_fits (c : ℕ) :
    ∀ (us items : List Parameters), items.length + us.length ≤ c →
      pushAll ⟨c, items⟩ us = (⟨c, items ++ us⟩, List.replicate us.length true) := by
  intro us
  induction us with
  | nil => intro items _; simp [pushAll]
  | cons u us ih =>
      intro items h
      have h2 : items.length + (us.length + 1) ≤ c := by simpa using h
      have hlt : items.length < c := by omega
      have hpush : (ArrayQueue.push ⟨c, items⟩ u) = (⟨c, items ++ [u]⟩, true) := by
        unfold ArrayQueue.push
        rw [if_pos hlt]
      have hrec := ih (items ++ [u]) (by simp [List.length_append]; omega)
      unfold pushAll
      rw [hpush]
      simp only [hrec, List.length_cons, List.replicate_succ]
      simp

/-- Draining exactly as many pops as there are pending items returns the
items oldest first. -/
theorem drainN_all (c : ℕ) :
    ∀ (us : List Parameters), drainN ⟨c, us⟩ us.length = us := by
  intro us
  induction us with
  | nil => simp [drainN]
  | cons u us ih =>
      unfold drainN ArrayQueue.pop
      simp only [List.length_cons]
      simpa using ih

/-- C7: pushing 16 items into the empty capacity-16 channel succeeds for
each of them, popping 16 times returns exactly those items in FIFO order,
and a 17th push fails: the channel is left unchanged (so exactly the
newest attempted item is dropped) and the failure is visible only through
the returned indicator. -/
theorem channel_fifo_roundtrip (us : List Parameters) (u : Parameters)
    (h : us.length = 16) :
    (pushAll (ArrayQueue.empty 16) us).2 = List.replicate 16 true ∧
    drainN (pushAll (ArrayQueue.empty 16) us).1 16 = us ∧
    ((pushAll (ArrayQueue.empty 16) us).1.push u).2 = false ∧
    ((pushAll (ArrayQueue.empty 16) us).1.push u).1 = (pushAll (ArrayQueue.empty 16) us).1 := by
  have hfits := pushAll_fits 16 us [] (by simp [h])
  have hempty : ArrayQueue.empty 16 = (⟨16, []⟩ : ArrayQueue) := rfl
  rw [hempty, hfits]
  have hfull : ¬ (us.length < 16) := by omega
  refine ⟨by simp [h], ?_, ?_, ?_⟩
  · have := drainN_all 16 us
    simpa [h] using this
  · unfold ArrayQueue.push
    simp [hfull]
  · unfold ArrayQueue.push
    simp [hfull]

/-- Sixteen concrete updates used to instantiate the channel theorem. -/
def usW : List Parameters := List.replicate 16 (Parameters.ModulationFreq 55)

/-- Witness for C7: the concrete batch `usW` of 16 updates round-trips
through the capacity-16 channel in FIFO order. -/
theorem channel_fifo_roundtrip_witness :
    usW.length = 16 ∧ drainN (pushAll (ArrayQueue.empty 16) usW).1 16 = usW :=
  ⟨by simp [usW],
    (channel_fifo_roundtrip usW (Parameters.Attack 1) (by simp [usW])).2.1⟩

/-- C9: on every call `Oscillator::render` returns the sine of the phase
held before the call, and only then advances the phase by the increment
`2π · (frequency.value() + exp2(detune.value()/1200)) / sample_rate`
(the code computes it as `2π / (sample_rate / effective_frequency)`,
which is the same quotient), applying the wrap step; the first render
call after construction returns `sin 0 = 0`. -/
theorem oscillator_render_contract (o : Oscillator) (t : ℕ) (r : ℝ) :
    (o.render t).1 = Real.sin o.phase ∧
    ((o.render t).2).phase =
      wrapStep (o.phase +
        2 * Real.pi * (o.frequency.value + exp2 (o.detune.value / 1200)) / o.sample_rate) ∧
    ((Oscillator.new r).render t).1 = 0 := by
  refine ⟨rfl, ?_, ?_⟩
  · have h1 : ((o.render t).2).phase = nanReset (wrapStep (o.phase + o.increment)) := rfl
    have h2 : nanReset (wrapStep (o.phase + o.increment)) = wrapStep (o.phase + o.increment) := by
      unfold nanReset
      rw [if_neg (fun h => h rfl)]
    rw [h1, h2]
    unfold Oscillator.increment
    rw [div_div_eq_mul_div]
  · show Real.sin 0 = 0
    exact Real.sin_zero

/-- An oscillator driven to a negative effective frequency, as the claim
C2 allows ("including pathological ones"): frequency set to `-2`, so the
effective frequency is `-2 + exp2(0) = -1`. -/
noncomputable def oscNeg : Oscillator := (Oscillator.new 48000).set_frequency (-2)

/-- Counterexample to C2: after one render call with effective frequency
`-1`, the phase is `2π / (-48000) < 0`, so it does not lie in `[0, 2π)`
(and is not reset: only a float `NaN`, not any out-of-range value, is). -/
theorem oscillator_phase_negative_freq_counterexample :
    ¬ (0 ≤ ((oscNeg.render 0).2).phase ∧ ((oscNeg.render 0).2).phase < 2 * Real.pi) := by
  have hinc : oscNeg.increment = 2 * Real.pi / (-48000) := by
    norm_num [Oscillator.increment, oscNeg, Oscillator.set_frequency, Oscillator.new,
      Param.new, Param.set_value, Param.value, exp2, Real.rpow_zero]
  have hphase : ((oscNeg.render 0).2).phase = nanReset (wrapStep (oscNeg.phase + oscNeg.increment)) := rfl
  have hp0 : oscNeg.phase = 0 := rfl
  have hneg : oscNeg.increment < 0 := by
    rw [hinc]
    exact div_neg_of_pos_of_neg Real.two_pi_pos (by norm_num)
  have hlt : oscNeg.phase + oscNeg.increment < 2 * Real.pi := by
    rw [hp0]
    have := Real.two_pi_pos
    linarith
  have hw : wrapStep (oscNeg.phase + oscNeg.increment) = oscNeg.phase + oscNeg.increment := by
    unfold wrapStep
    rw [if_neg (not_lt.mpr (le_of_lt hlt))]
  have hnr : nanReset (oscNeg.phase + oscNeg.increment) = oscNeg.phase + oscNeg.increment := by
    unfold nanReset
    rw [if_neg (fun h => h rfl)]
  intro hcontra
  have hge := hcontra.1
  rw [hphase, hw, hnr, hp0, zero_add] at hge
  linarith

/-- C2 as amended: when the phase before the call lies in `[0, 2π)` and
the computed phase increment lies in `[0, 2π]` (an effective frequency in
`[0, sample_rate]`), the phase after `Oscillator::render` lies in
`[0, 2π]`; the single conditional subtraction of `2π` can land exactly on
`2π`, and a negative effective frequency escapes below `0`, so neither
bound can be sharpened to the claim's `[0, 2π)`. -/
theorem oscillator_phase_bounded (o : Oscillator) (t : ℕ)
    (h0 : 0 ≤ o.phase) (h1 : o.phase < 2 * Real.pi)
    (h2 : 0 ≤ o.increment) (h3 : o.increment ≤ 2 * Real.pi) :
    0 ≤ ((o.render t).2).phase ∧ ((o.render t).2).phase ≤ 2 * Real.pi := by
  have hphase : ((o.render t).2).phase = nanReset (wrapStep (o.phase + o.increment)) := rfl
  have hnr : ∀ x : ℝ, nanReset x = x := fun x => by
    unfold nanReset
    rw [if_neg (fun h => h rfl)]
  rw [hphase, hnr]
  unfold wrapStep
  split_ifs with h
  · constructor
    · linarith
    · linarith
  · rw [not_lt] at h
    constructor
    · linarith
    · linarith

/-- A freshly constructed oscillator at 48 kHz, used as a witness input. -/
noncomputable def oscW : Oscillator := Oscillator.new 48000

/-- Witness for the amended C2: the fresh 48 kHz oscillator has phase `0`
and increment `2π/(48000/441) ∈ [0, 2π]`, and after one render call its
phase stays within `[0, 2π]`. -/
theorem oscillator_phase_bounded_witness :
    0 ≤ oscW.phase ∧ oscW.phase < 2 * Real.pi ∧
      0 ≤ oscW.increment ∧ oscW.increment ≤ 2 * Real.pi ∧
      0 ≤ ((oscW.render 0).2).phase ∧ ((oscW.render 0).2).phase ≤ 2 * Real.pi := by
  have hp : oscW.phase = 0 := rfl
  have hinc : oscW.increment = 2 * Real.pi / (48000 / 441) := by
    norm_num [Oscillator.increment, oscW, Oscillator.new, Param.new, Param.value,
      exp2, Real.rpow_zero]
  have h0 : 0 ≤ oscW.phase := by rw [hp]
  have h1 : oscW.phase < 2 * Real.pi := by
    rw [hp]
    exact Real.two_pi_pos
  have h2 : 0 ≤ oscW.increment := by
    rw [hinc]
    positivity
  have h3 : oscW.increment ≤ 2 * Real.pi := by
    rw [hinc]
    exact div_le_self (le_of_lt Real.two_pi_pos) (by norm_num)
  have hmain := oscillator_phase_bounded oscW 0 h0 h1 h2 h3
  exact ⟨h0, h1, h2, h3, hmain.1, hmain.2⟩

/-- The update dispatch never touches the queue field. -/
theorem applyUpdate_queue (s : SynthState) (m : Parameters) :
    (applyUpdate s m).queue = s.queue := by
  cases m <;> rfl

/-- The single pop attempt advances the queue by exactly its head. -/
theorem popAndApply_queue (s : SynthState) : (popAndApply s).queue = s.queue.tail := by
  cases hq : s.queue with
  | nil => simp [popAndApply, hq]
  | cons m rest => simp [popAndApply, hq, applyUpdate_queue]

/-- Unfolding equation for the frame loop. -/
theorem runFrames_succ (s : SynthState) (n : ℕ) :
    runFrames s (n + 1) =
      ((runFrames (processFrame s).1 n).1,
        (processFrame s).2 :: (runFrames (processFrame s).1 n).2) := rfl

/-- The frame loop never touches the queue field. -/
theorem runFrames_queue (n : ℕ) : ∀ s : SynthState, ((runFrames s n).1).queue = s.queue := by
  induction n with
  | zero => intro s; rfl
  | succ k ih =>
      intro s
      rw [runFrames_succ]
      exact ih (processFrame s).1

/-- The frame loop emits one stereo pair per frame. -/
theorem runFrames_length (n : ℕ) : ∀ s : SynthState, ((runFrames s n).2).length = n := by
  induction n with
  | zero => intro s; rfl
  | succ k ih =>
      intro s
      rw [runFrames_succ]
      simp [ih]

/-- C8: each callback invocation attempts exactly one pop (the queue
advances by its head and by nothing else, whatever the block length),
emits one stereo pair per frame, and each frame triggers the envelope iff
the clock is an exact multiple of 48000, sets the carrier frequency with
the immediate setter to `(modulator_output + 1) * 100`, and writes the
identical value `envelope(t) * carrier(t)` to both channels. -/
theorem callback_per_block_contract (s : SynthState) (n : ℕ) :
    ((processBlock s n).1).queue = s.queue.tail ∧
    ((processBlock s n).2).length = n ∧
    (∀ fs : SynthState,
      ((processFrame fs).2).1 = ((processFrame fs).2).2 ∧
      ((processFrame fs).2).1 =
        (if fs.clock % 48000 = 0 then fs.env.trigger fs.clock else fs.env).render fs.clock *
          ((fs.osc.set_frequency_no_smooth (((fs.oscMod.render fs.clock).1 + 1) * 100)).render fs.clock).1 ∧
      ((processFrame fs).1).env = (if fs.clock % 48000 = 0 then fs.env.trigger fs.clock else fs.env) ∧
      ((processFrame fs).1).osc.frequency =
        (fs.osc.set_frequency_no_smooth (((fs.oscMod.render fs.clock).1 + 1) * 100)).frequency ∧
      ((processFrame fs).1).clock = fs.clock + 1) := by
  refine ⟨?_, ?_, fun fs => ⟨rfl, rfl, rfl, rfl, rfl⟩⟩
  · unfold processBlock
    rw [runFrames_queue, popAndApply_queue]
  · unfold processBlock
    exact runFrames_length n (popAndApply s)

/-- A frame's behaviour is independent of the carrier frequency values
held before the frame (`v0`, `v1`, `counter`): the per-frame immediate
setter overwrites them before the carrier oscillator reads anything. -/
theorem processFrame_carrier_freq_indep (s : SynthState) (p : Param)
    (hs : p.smoothing = s.osc.frequency.smoothing)
    (hsr : p.sample_rate = s.osc.frequency.sample_rate) :
    processFrame { s with osc := { s.osc with frequency := p } } = processFrame s := by
  obtain ⟨env, osc, oscMod, queue, clock⟩ := s
  obtain ⟨ph, osr, fr, de⟩ := osc
  obtain ⟨a, b, c, d, e⟩ := p
  obtain ⟨a0, b0, c0, d0, e0⟩ := fr
  simp only at hs hsr
  subst hs
  subst hsr
  rfl

/-- The update dispatch commutes with overwriting the queue field. -/
theorem applyUpdate_set_queue (s : SynthState) (m : Parameters) (q : List Parameters) :
    applyUpdate { s with queue := q } m = { applyUpdate s m with queue := q } := by
  cases m <;> rfl

/-- The frame loop is oblivious to the queue contents: replacing the
queue only replaces the queue in the result. -/
theorem runFrames_set_queue (n : ℕ) : ∀ (s : SynthState) (q : List Parameters),
    runFrames { s with queue := q } n =
      ({ (runFrames s n).1 with queue := q }, (runFrames s n).2) := by
  induction n with
  | zero => intro s q; rfl
  | succ k ih =>
      intro s q
      have hpf : processFrame { s with queue := q }
          = ({ (processFrame s).1 with queue := q }, (processFrame s).2) := rfl
      rw [runFrames_succ, runFrames_succ, hpf, ih]

/-- The state with a pending `CarrierFrequency(220)` update at an
otherwise fresh 48 kHz voice. -/
noncomputable def sPending : SynthState :=
  ⟨ADSR.new 48000, Oscillator.new 48000, Oscillator.new 48000, [Parameters.CarrierFreq 220], 0⟩

/-- The same fresh voice with an empty queue. -/
noncomputable def sIdle : SynthState :=
  ⟨ADSR.new 48000, Oscillator.new 48000, Oscillator.new 48000, [], 0⟩

/-- Counterexample to C3: rendering the block in which the
`CarrierFrequency(220)` update is popped produces exactly the same output
(and the same final state) as rendering with no update at all, and the
carrier's effective frequency after the block is `(sin 0 + 1) * 100 = 100`,
not `220`: the per-frame FM setter overwrites the popped value before the
carrier ever renders, so the update has no observable effect. -/
theorem carrier_update_no_observable_effect :
    processBlock sPending 1 = processBlock sIdle 1 ∧
    ((processBlock sPending 1).1).osc.frequency.value = 100 := by
  constructor
  · rfl
  · have h : ((processBlock sPending 1).1).osc.frequency.value = (Real.sin 0 + 1) * 100 := rfl
    rw [h, Real.sin_zero]
    norm_num

/-- C3 as amended: in the block in which the `CarrierFrequency(v)` update
is popped, the pop immediately sets the carrier frequency parameter to
`v` (before any frame is rendered), and a pending update has no
observable effect while still queued behind others; but the per-frame
immediate FM setter overwrites the carrier frequency before each carrier
render, so the whole block behaves exactly as if the update had never
been pushed. -/
theorem carrier_update_applied_at_pop (s : SynthState) (v : ℝ) (n : ℕ)
    (us : List Parameters) (hn : 1 ≤ n)
    (hq : s.queue = [Parameters.CarrierFreq v]) (hus : us ≠ []) :
    (popAndApply s).osc.frequency.value = v ∧
    processBlock s n = processBlock { s with queue := [] } n ∧
    (processBlock { s with queue := us ++ [Parameters.CarrierFreq v] } n).2 =
      (processBlock { s with queue := us } n).2 := by
  have hA : popAndApply s = applyUpdate { s with queue := [] } (Parameters.CarrierFreq v) := by
    unfold popAndApply
    rw [hq]
  refine ⟨?_, ?_, ?_⟩
  · rw [hA]
    rfl
  · obtain ⟨k, rfl⟩ : ∃ k, n = k + 1 := ⟨n - 1, by omega⟩
    have hB : popAndApply { s with queue := [] } = { s with queue := [] } := rfl
    have hpf : processFrame (popAndApply s) = processFrame { s with queue := [] } := by
      rw [hA]
      exact processFrame_carrier_freq_indep { s with queue := [] }
        (s.osc.frequency.set_value v) rfl rfl
    unfold processBlock
    rw [hB, runFrames_succ, runFrames_succ, hpf]
  · obtain ⟨m, rest, rfl⟩ := List.exists_cons_of_ne_nil hus
    have e1 : (processBlock { s with queue := (m :: rest) ++ [Parameters.CarrierFreq v] } n).2
        = (runFrames (applyUpdate s m) n).2 := by
      unfold processBlock
      have hpop : popAndApply { s with queue := (m :: rest) ++ [Parameters.CarrierFreq v] }
          = { applyUpdate s m with queue := rest ++ [Parameters.CarrierFreq v] } :=
        applyUpdate_set_queue s m (rest ++ [Parameters.CarrierFreq v])
      rw [hpop, runFrames_set_queue]
    have e2 : (processBlock { s with queue := m :: rest } n).2
        = (runFrames (applyUpdate s m) n).2 := by
      unfold processBlock
      have hpop : popAndApply { s with queue := m :: rest }
          = { applyUpdate s m with queue := rest } :=
        applyUpdate_set_queue s m rest
      rw [hpop, runFrames_set_queue]
    rw [e1, e2]

/-- Witness for the amended C3: on the fresh voice with the pending
`CarrierFrequency(220)` update, the pop sets the carrier frequency
parameter to `220`. -/
theorem carrier_update_applied_at_pop_witness :
    1 ≤ 1 ∧ sPending.queue = [Parameters.CarrierFreq 220] ∧
      ([Parameters.Attack 1] : List Parameters) ≠ [] ∧
      (popAndApply sPending).osc.frequency.value = 220 :=
  ⟨le_refl 1, rfl, by simp,
    (carrier_update_applied_at_pop sPending 220 1 [Parameters.Attack 1]
      (le_refl 1) rfl (by simp)).1⟩
